import Mathlib

/-!
Shallow embedding of the feed/thread normalization and optimistic-mutation
engine of the Wii-Plasmic repository (src/lib/NormalizeUtils.ts,
src/lib/UpdateThreadNode.ts, src/lib/Feed.ts, src/lib/BlueskyAuthProvider.tsx,
src/components/BlueskyFeedProvider.tsx), together with theorems settling the
frozen claims about it.

JavaScript values are modelled with typed structures carrying exactly the
fields the code reads; optional fields are `Option`, JS exceptions are the
error case of `Except`, and JS string truthiness is made explicit.
-/

namespace WiiPlasmic

/-- JS truthiness of an optional string value: null, undefined and the empty
string are falsy; every other string is truthy. -/
def jsTruthy : Option String → Bool
  | none => false
  | some s => s != ""

/-- JS logical-or on optional strings: the first operand when truthy,
otherwise the second operand. -/
def jsOr (a b : Option String) : Option String := if jsTruthy a then a else b

/-- JS nullish coalescing on optional strings: the first operand unless it is
null or undefined. -/
def jsQQ (a b : Option String) : Option String :=
  match a with
  | some s => some s
  | none => b

/-- The message of the TypeError raised by reading `.record` of an undefined
`embed.record` (the one unguarded property access in NormalizeUtils.ts). JS
errors are modelled as an optional message string. -/
def undefinedRecordMsg : Option String := some "Cannot read properties of undefined (reading 'record')"

/-- embed type tag for quote-plus-media embeds. -/
def recordWithMediaType : String := "app.bsky.embed.recordWithMedia#view"

/-- embed type tag for direct video embeds. -/
def videoViewType : String := "app.bsky.embed.video#view"

/-- embed type tag for external-link embeds. -/
def externalViewType : String := "app.bsky.embed.external#view"

/-- reason type tag marking feed-level reposts. -/
def reasonRepostType : String := "app.bsky.feed.defs#reasonRepost"

/-- An image object as carried by image embeds, and as synthesized from an
external-link thumbnail by getDisplayImages. -/
structure Image where
  fullsize : Option String
  thumb : Option String
  alt : Option String
deriving DecidableEq, Repr

/-- The external-link payload of an embed (the fields the code reads). -/
structure External where
  thumb : Option String
  title : Option String
deriving DecidableEq, Repr

/-- The media part of a recordWithMedia embed: image list or video fields. -/
structure Media where
  mtype : Option String
  images : Option (List Image)
  playlist : Option String
  thumbnail : Option String
  alt : Option String
  cid : Option String
deriving DecidableEq, Repr

/-- An embedded record view: flattenEmbed looks for an author at the current
level or one level further down, so the record chain is recursive. -/
inductive EmbRec where
  | mk (author : Option String) (rcd : Option EmbRec)

/-- author field of an embedded record view. -/
def EmbRec.author : EmbRec → Option String
  | .mk a _ => a

/-- nested record field of an embedded record view. -/
def EmbRec.rcd : EmbRec → Option EmbRec
  | .mk _ r => r

/-- A post embed, with every field that flattenEmbed, getDisplayImages,
getDisplayVideo or normalizePost reads. `etype` models the `$type` tag. -/
structure Embed where
  etype : Option String
  rcd : Option EmbRec
  images : Option (List Image)
  media : Option Media
  external : Option External
  playlist : Option String
  thumbnail : Option String
  alt : Option String
  cid : Option String

/-- The video facet produced by getDisplayVideo. -/
structure Video where
  playlist : Option String
  thumbnail : Option String
  alt : Option String
  cid : Option String
deriving DecidableEq, Repr

/-- Flattens an embed into the quoted record view carrying an author, if any
(NormalizeUtils.ts flattenEmbed). For a recordWithMedia embed the code reads
`embed.record.record` without a guard, so a recordWithMedia embed with no
record field raises a TypeError: that is the `Except.error` case. -/
def flattenEmbed : Option Embed → Except (Option String) (Option EmbRec)
  | none => .ok none
  | some e => do
    let record : Option EmbRec ←
      if e.etype = some recordWithMediaType then
        match e.rcd with
        | none => Except.error undefinedRecordMsg
        | some r => pure r.rcd
      else pure e.rcd
    match record with
    | none => pure none
    | some r =>
      if r.author.isSome then pure (some r)
      else
        match r.rcd with
        | some r2 => if r2.author.isSome then pure (some r2) else pure none
        | none => pure none

/-- Extracts the list of displayable images from an embed
(NormalizeUtils.ts getDisplayImages): direct image array, media-wrapped image
array, then a single image synthesized from an external-link thumbnail. -/
def getDisplayImages : Option Embed → List Image
  | none => []
  | some e =>
    match e.images with
    | some imgs => imgs
    | none =>
      match e.media.bind Media.images with
      | some imgs => imgs
      | none =>
        match e.external with
        | some ext =>
          if jsTruthy ext.thumb then [⟨ext.thumb, ext.thumb, ext.title⟩] else []
        | none => []

/-- Extracts a displayable video payload from an embed
(NormalizeUtils.ts getDisplayVideo): direct video embed, or recordWithMedia
whose media part is a video embed. -/
def getDisplayVideo : Option Embed → Option Video
  | none => none
  | some e =>
    if e.etype = some videoViewType then
      some ⟨e.playlist, e.thumbnail, e.alt, e.cid⟩
    else
      match e.media with
      | some m =>
        if e.etype = some recordWithMediaType ∧ m.mtype = some videoViewType then
          some ⟨m.playlist, m.thumbnail, m.alt, m.cid⟩
        else none
      | none => none

/-- The reply context of a post record: the code only tests presence of
`record.reply` and then reads `record.createdAt`. -/
structure PostRecord where
  reply : Bool
  createdAt : Option String
deriving DecidableEq, Repr

/-- The viewer relationship of a post: like and repost are either absent, the
distinguished string "pending", or a record uri. -/
structure Viewer where
  like : Option String
  repost : Option String
deriving DecidableEq, Repr

/-- A raw post view object: the fields that normalizePost, likePost and
repostPost read off `post`. Counts are JS numbers, modelled as integers. -/
structure RawPost where
  uri : Option String
  cid : Option String
  embed : Option Embed
  record : Option PostRecord
  viewer : Option Viewer
  likeCount : Option Int
  repostCount : Option Int

/-- The feed reason object: tag, reposting actor and repost timestamp. Actors
are modelled by an opaque identifying string. -/
structure Reason where
  rtype : Option String
  actor : Option String
  indexedAt : Option String
deriving DecidableEq, Repr

/-- A raw API node as consumed by normalizePost. One JS object serves both as
a feed-item wrapper (keys post, reason, reply) and, when the post key is
absent, as the post itself; `asPost` is the node read as a post object, and is
only reached when `post` is absent. `replyParent` is the wrapper key
`reply.parent`; `replies` is the thread key `replies` (absent or an array). -/
inductive RawNode where
  | mk (post : Option RawPost) (asPost : RawPost) (reason : Option Reason)
       (replyParent : Option RawNode) (replies : Option (List RawNode))

/-- The canonical PostView produced by normalizePost, with its recursive
parent and replies fields. -/
inductive PostView where
  | mk (post : RawPost) (repostedBy : Option String) (repostTime : Option String)
       (replyTime : Option String) (quoteTime : Option String)
       (parent : Option PostView) (quote : Option EmbRec)
       (displayImages : List Image) (displayVideo : Option Video)
       (externalLink : Option External) (replies : List PostView)
       (likers : List String)

namespace PostView

/-- underlying raw post of a PostView. -/
def post : PostView → RawPost
  | .mk p _ _ _ _ _ _ _ _ _ _ _ => p

/-- reposting actor of a PostView. -/
def repostedBy : PostView → Option String
  | .mk _ r _ _ _ _ _ _ _ _ _ _ => r

/-- repost timestamp of a PostView. -/
def repostTime : PostView → Option String
  | .mk _ _ t _ _ _ _ _ _ _ _ _ => t

/-- reply timestamp of a PostView. -/
def replyTime : PostView → Option String
  | .mk _ _ _ t _ _ _ _ _ _ _ _ => t

/-- quote timestamp of a PostView. -/
def quoteTime : PostView → Option String
  | .mk _ _ _ _ t _ _ _ _ _ _ _ => t

/-- normalized parent of a PostView. -/
def parent : PostView → Option PostView
  | .mk _ _ _ _ _ p _ _ _ _ _ _ => p

/-- quoted record facet of a PostView. -/
def quote : PostView → Option EmbRec
  | .mk _ _ _ _ _ _ q _ _ _ _ _ => q

/-- display image list of a PostView. -/
def displayImages : PostView → List Image
  | .mk _ _ _ _ _ _ _ d _ _ _ _ => d

/-- display video facet of a PostView. -/
def displayVideo : PostView → Option Video
  | .mk _ _ _ _ _ _ _ _ d _ _ _ => d

/-- external link facet of a PostView. -/
def externalLink : PostView → Option External
  | .mk _ _ _ _ _ _ _ _ _ e _ _ => e

/-- normalized children of a PostView. -/
def replies : PostView → List PostView
  | .mk _ _ _ _ _ _ _ _ _ _ r _ => r

/-- likers list of a PostView. -/
def likers : PostView → List String
  | .mk _ _ _ _ _ _ _ _ _ _ _ l => l

end PostView

/-- The dual-shape selection at the top of normalizePost: a node with a
(truthy) post key is a feed-item wrapper whose post is nested, otherwise the
node itself is the post object. -/
def selectPost (post : Option RawPost) (asPost : RawPost) : RawPost :=
  match post with
  | some q => q
  | none => asPost

/-- The repost detection of normalizePost: the reason key is present and
tagged as a repost reason. -/
def isRepostReason (reason : Option Reason) : Bool :=
  match reason with
  | some r => r.rtype == some reasonRepostType
  | none => false

/-- replyTime of normalizePost: the record creation time when the record has
a reply context. -/
def replyTimeOf (p : RawPost) : Option String :=
  match p.record with
  | some rc => if rc.reply then rc.createdAt else none
  | none => none

/-- externalLink of normalizePost: the external payload when the embed is an
external view. -/
def externalLinkOf (p : RawPost) : Option External :=
  match p.embed with
  | some e => if e.etype = some externalViewType then e.external else none
  | none => none

mutual

/-- Main normalizer (NormalizeUtils.ts normalizePost): converts a raw node
into a PostView, or none when no post uri is resolvable. The error case is
the TypeError propagated out of flattenEmbed. -/
def normalizePost : RawNode → Except (Option String) (Option PostView)
  | .mk post asPost reason replyParent replies => do
    let p := selectPost post asPost
    if jsTruthy p.uri then
      let isRepost := isRepostReason reason
      let fe ← flattenEmbed p.embed
      let par ← normalizeParentOpt replyParent
      let reps ← normalizeRepliesOpt replies
      pure (some (.mk p
        (if isRepost then (reason.map Reason.actor).join else none)
        (if isRepost then (reason.map Reason.indexedAt).join else none)
        (replyTimeOf p)
        (if fe.isSome then p.record.bind PostRecord.createdAt else none)
        par fe (getDisplayImages p.embed) (getDisplayVideo p.embed)
        (externalLinkOf p)
        (reps.filterMap id) []))
    else
      pure none

/-- The reply.parent recursion of normalizePost: the parent is normalized
when present, otherwise the parent facet is null. -/
def normalizeParentOpt : Option RawNode → Except (Option String) (Option PostView)
  | some pr => normalizePost pr
  | none => pure none

/-- The replies recursion of normalizePost: an absent replies key yields the
empty list, a present array is normalized elementwise. -/
def normalizeRepliesOpt : Option (List RawNode) →
    Except (Option String) (List (Option PostView))
  | some l => normalizeReplies l
  | none => pure []

/-- The elementwise recursion of normalizePost over a replies array; the
nulls in its result are dropped by the caller via filter(Boolean). -/
def normalizeReplies : List RawNode → Except (Option String) (List (Option PostView))
  | [] => pure []
  | n :: ns => do
    let v ← normalizePost n
    let vs ← normalizeReplies ns
    pure (v :: vs)

end

/-- A raw post with every field absent. Used for the post-projection of
objects that are not post views; those fields are never read. -/
def RawPost.void : RawPost := ⟨none, none, none, none, none, none, none⟩

mutual

/-- A PostView value read back as a raw node, exactly as normalizePost reads
a JS object: it has a `post` key, no `reason` key, no `reply` key, and a
`replies` key holding the (always present) replies array. -/
def PostView.toRaw : PostView → RawNode
  | .mk post _ _ _ _ _ _ _ _ _ replies _ =>
    .mk (some post) RawPost.void none none (some (PostView.toRawList replies))

/-- Pointwise toRaw over a replies list. -/
def PostView.toRawList : List PostView → List RawNode
  | [] => []
  | v :: vs => PostView.toRaw v :: PostView.toRawList vs

end

mutual

/-- What re-running normalizePost over an already normalized PostView
produces: the post and every field derived from it are kept, but repostedBy,
repostTime and parent are reset to none (a PostView carries no reason key and
no reply key), likers are reset to the empty list, and replies are
renormalized recursively. -/
def PostView.renorm : PostView → PostView
  | .mk post _ _ replyTime quoteTime _ quote di dv el replies _ =>
    .mk post none none replyTime quoteTime none quote di dv el
      (PostView.renormList replies) []

/-- Pointwise renorm over a replies list. -/
def PostView.renormList : List PostView → List PostView
  | [] => []
  | v :: vs => PostView.renorm v :: PostView.renormList vs

end

/-- Replaces the replies list of a PostView, keeping every other field: the
shallow copy `{...nodes, replies: ...}` made by updateThreadNode. -/
def PostView.withReplies : PostView → List PostView → PostView
  | .mk post rb rt ryt qt par q di dv el _ lk, rs =>
    .mk post rb rt ryt qt par q di dv el rs lk

mutual

/-- Immutable tree transform (UpdateThreadNode.ts updateThreadNode) on one
non-null node. On a uri match the transform result is returned without
recursing; otherwise a node with a nonempty replies array is shallow-copied
with the recursively updated replies, and a leaf is returned unchanged. A
typed PostView always carries a post, so the `!nodes.post` part of the
defensive guard never fires on these values. -/
def updateThreadNodeGo (targetUri : String) (updateFn : PostView → PostView) :
    PostView → PostView
  | .mk post rb rt ryt qt par q di dv el replies lk =>
    if post.uri = some targetUri then
      updateFn (.mk post rb rt ryt qt par q di dv el replies lk)
    else if replies.length > 0 then
      .mk post rb rt ryt qt par q di dv el
        (updateThreadNodeList targetUri updateFn replies) lk
    else .mk post rb rt ryt qt par q di dv el replies lk

/-- updateThreadNode on an array of non-null nodes, such as a replies array:
the operation is mapped over the elements (Array.isArray branch). -/
def updateThreadNodeList (targetUri : String) (updateFn : PostView → PostView) :
    List PostView → List PostView
  | [] => []
  | v :: vs =>
    updateThreadNodeGo targetUri updateFn v ::
      updateThreadNodeList targetUri updateFn vs

end

/-- updateThreadNode on a possibly-null node: the `!nodes` guard returns null
unchanged. -/
def updateThreadNode (targetUri : String) (updateFn : PostView → PostView) :
    Option PostView → Option PostView
  | none => none
  | some v => some (updateThreadNodeGo targetUri updateFn v)

/-- updateThreadNode on an array whose elements may be null, such as the
ancestors bucket: the operation is mapped over the elements, nulls passing
through unchanged. -/
def updateThreadNodeOpts (targetUri : String) (updateFn : PostView → PostView)
    (ns : List (Option PostView)) : List (Option PostView) :=
  ns.map (updateThreadNode targetUri updateFn)

mutual

/-- Number of nodes of a tree whose post uri equals the target uri
(a specification helper for the tree-update theorems). -/
def countOcc (u : String) : PostView → Nat
  | .mk post _ _ _ _ _ _ _ _ _ replies _ =>
    (if post.uri = some u then 1 else 0) + countOccList u replies

/-- Sum of countOcc over a list of trees. -/
def countOccList (u : String) : List PostView → Nat
  | [] => 0
  | v :: vs => countOcc u v + countOccList u vs

end

/-- The subtree of a tree at a path of child indices (specification helper). -/
def getAtPath : PostView → List Nat → Option PostView
  | v, [] => some v
  | v, i :: p =>
    match v.replies.get? i with
    | some c => getAtPath c p
    | none => none

/-- Path replacement, modelled from the specification words for the tree
update: rebuild exactly the nodes along the path, apply the transform to the
node at the end of the path, and keep every sibling subtree untouched. -/
def replaceAtPath (updateFn : PostView → PostView) : PostView → List Nat → PostView
  | v, [] => updateFn v
  | v, i :: p =>
    match v.replies.get? i with
    | some c => v.withReplies (v.replies.set i (replaceAtPath updateFn c p))
    | none => v

/-- Boolean prefix test on child-index paths. -/
def pathPre : List Nat → List Nat → Bool
  | [], _ => true
  | _ :: _, [] => false
  | a :: as, b :: bs => a == b && pathPre as bs

mutual

/-- Search helper of likePost and repostPost (checkNode): depth-first search
for the node carrying the given uri, on one non-null node. -/
def checkNodeGo (uri : String) : PostView → Option PostView
  | .mk post rb rt ryt qt par q di dv el replies lk =>
    if post.uri = some uri then
      some (.mk post rb rt ryt qt par q di dv el replies lk)
    else checkNodeList uri replies

/-- The for-loop of checkNode over a replies array: first hit wins. -/
def checkNodeList (uri : String) : List PostView → Option PostView
  | [] => none
  | v :: vs =>
    match checkNodeGo uri v with
    | some found => some found
    | none => checkNodeList uri vs

end

/-- checkNode on a possibly-null node: the `!n` guard returns null. -/
def checkNode (uri : String) : Option PostView → Option PostView
  | none => none
  | some v => checkNodeGo uri v

namespace RawNode

/-- nested post object of a raw node. -/
def post : RawNode → Option RawPost
  | .mk p _ _ _ _ => p

/-- the raw node read as a post object (used when the post key is absent). -/
def asPost : RawNode → RawPost
  | .mk _ a _ _ _ => a

/-- reason object of a raw node. -/
def reason : RawNode → Option Reason
  | .mk _ _ r _ _ => r

/-- reply.parent of a raw node. -/
def replyParent : RawNode → Option RawNode
  | .mk _ _ _ p _ => p

/-- replies array of a raw node. -/
def replies : RawNode → Option (List RawNode)
  | .mk _ _ _ _ r => r

end RawNode

/-- A node of a raw thread response: its content (post, replies, and so on)
as a raw node, plus the upward parent pointer that only the ancestor walk
follows (normalizePost never reads a `parent` key). -/
inductive ThreadNode where
  | mk (content : RawNode) (parent : Option ThreadNode)

/-- content of a thread node. -/
def ThreadNode.content : ThreadNode → RawNode
  | .mk c _ => c

/-- parent pointer of a thread node. -/
def ThreadNode.parent : ThreadNode → Option ThreadNode
  | .mk _ p => p

mutual

/-- One step of the ancestor collection loop of fetchThreadImpl at a present
chain node: push it when it carries a post payload, then move upward. -/
def walkAncestorsGo : ThreadNode → List ThreadNode
  | .mk c p =>
    (if c.post.isSome then [ThreadNode.mk c p] else []) ++ walkAncestors p

/-- The ancestor collection loop of fetchThreadImpl: walk the parent chain
until the pointer is absent, pushing the nodes that carry a post payload,
nearest parent first. -/
def walkAncestors : Option ThreadNode → List ThreadNode
  | none => []
  | some t => walkAncestorsGo t

end

mutual

/-- The full chain from a present node downward-to-upward, gaps included. -/
def chainGo : ThreadNode → List ThreadNode
  | .mk c p => ThreadNode.mk c p :: chainToList p

/-- The full parent chain of a thread node, gaps included (specification
helper for the ancestor-walk theorem). -/
def chainToList : Option ThreadNode → List ThreadNode
  | none => []
  | some t => chainGo t

end

/-- The thread-related React state written by fetchThreadImpl through its
setters. The ancestors bucket is an unfiltered map of normalizePost and may
contain nulls; the replies bucket is filtered through filter(Boolean). -/
structure ThreadState where
  threadLoading : Bool
  threadError : Option String
  threadAncestors : List (Option PostView)
  threadFocused : Option PostView
  threadReplies : List (Option PostView)

/-- Thread fetch and decomposition (fetchThreadImpl in
BlueskyAuthProvider.tsx; fetchThread in BlueskyFeedProvider.tsx is the same
logic). `resp` is the settled remote call: a transport error carrying its
optional message, or the (possibly undefined) thread view root. The state
setters are modelled by returning the new thread state; the function itself
is total: every exception of the body is caught and turned into an error
message in the state. -/
def fetchThreadImpl (threadUri : Option String)
    (resp : Except (Option String) (Option ThreadNode))
    (st : ThreadState) : ThreadState :=
  if ¬ jsTruthy threadUri then st
  else
    let st1 : ThreadState := { st with threadLoading := true, threadError := none }
    let st2 : ThreadState :=
      match resp with
      | .error m =>
        { st1 with threadError := some (m.getD "Failed to fetch thread") }
      | .ok root =>
        if ¬ jsTruthy ((root.bind (fun t => t.content.post)).bind RawPost.uri) then
          { st1 with threadError := some "Post not found or blocked",
                     threadAncestors := [], threadFocused := none,
                     threadReplies := [] }
        else
          match root with
          | none => st1
          | some tn =>
            match (do
              let anc ← normalizeReplies
                ((walkAncestors tn.parent).reverse.map ThreadNode.content)
              let foc ← normalizePost tn.content
              let reps ← normalizeReplies (tn.content.replies.getD [])
              pure (anc, foc, reps.filter Option.isSome) :
                Except (Option String) _) with
            | .error m =>
              { st1 with threadError := some (m.getD "Failed to fetch thread") }
            | .ok (anc, foc, reps) =>
              { st1 with threadAncestors := anc, threadFocused := foc,
                         threadReplies := reps }
    { st2 with threadLoading := false }

/-- The default Discover feed address (DISCOVER_FEED_URI). -/
def DISCOVER_FEED_URI : String :=
  "at://did:plc:z72i7hdynmk6r22z27h6tvur/app.bsky.feed.generator/whats-hot"

/-- One page of a feed endpoint response: raw feed items plus cursor. -/
structure FeedResp where
  feed : List RawNode
  cursor : Option String

/-- One page of the search endpoint response, which returns bare posts. -/
structure SearchResp where
  posts : List RawPost
  cursor : Option String

/-- The remote client as seen by the feed fetcher: each endpoint is an oracle
from request parameters to the response it delivers. resolveHandle returns
none when the resolution call fails. -/
structure FeedAgent where
  getTimeline : Nat → Option String → FeedResp
  searchPosts : String → Nat → Option String → SearchResp
  getFeed : String → Nat → Option String → FeedResp
  getAuthorFeed : String → Nat → Option String → FeedResp
  resolveHandle : String → Option String

/-- Simulation of the URL pattern match of resolveFeedUri, the regular
expression profile\/([^/]+)\/feed\/([^/]+): scan left to right for an
occurrence of "profile/" followed by a slash-free nonempty identifier, the
literal "/feed/", and a slash-free nonempty feed key. -/
def pfMatch : List Char → Option (String × String)
  | [] => none
  | c :: cs =>
    if (c :: cs).take 8 = "profile/".data then
      let rest := (c :: cs).drop 8
      let a := rest.takeWhile (· ≠ '/')
      let rest2 := rest.drop a.length
      if a ≠ [] ∧ rest2.take 6 = "/feed/".data then
        let b := (rest2.drop 6).takeWhile (· ≠ '/')
        if b ≠ [] then some (String.mk a, String.mk b) else pfMatch cs
      else pfMatch cs
    else pfMatch cs

/-- Resolves a feed URL or identifier into a canonical feed generator AT-URI
(resolveFeedUri). The agent is optional: the handle-resolution call on a
missing agent throws inside the try block and is caught, yielding none, like
any other failed resolution. -/
def resolveFeedUri (agent : Option FeedAgent) (url : String) : Option String :=
  if url = "" then none
  else if url.startsWith "at://" then some url
  else
    match pfMatch url.data with
    | some (identifier, feedId) =>
      if identifier.startsWith "did:" then
        some ("at://" ++ identifier ++ "/app.bsky.feed.generator/" ++ feedId)
      else
        match agent with
        | none => none
        | some a =>
          match a.resolveHandle identifier with
          | some did => some ("at://" ++ did ++ "/app.bsky.feed.generator/" ++ feedId)
          | none => none
    | none => none

/-- One page of normalized feed results as returned by fetchFeedImpl: the
posts are exactly data.map(normalizePost), nulls retained, and the cursor is
the upstream continuation cursor. -/
structure FeedPage where
  posts : List (Option PostView)
  cursor : Option String

/-- Wraps a bare search result post into the feed-item shape (the
search branch maps each post to an object with a single post key). -/
def wrapSearchPost (p : RawPost) : RawNode :=
  .mk (some p) RawPost.void none none none

/-- The TypeError message raised by invoking an endpoint on a missing agent
object; the exact message text is immaterial to every claim. -/
def nullAgentMsg : Option String :=
  some "Cannot read properties of null"

/-- Mode-dispatching feed fetch (src/lib/Feed.ts fetchFeedImpl). The mode is
an open string: timeline, search and feed are dispatched explicitly and
anything else falls through to the author branch. The agent is optional; the
timeline branch guards on it, while the other branches would raise a
TypeError when calling an endpoint on a missing agent. The returned page maps
the raw entries through normalizePost without dropping nulls. -/
def fetchFeedImpl (agent : Option FeedAgent) (mode : String)
    (actor feedUrl searchQuery : Option String) (limit : Nat)
    (cursor : Option String) : Except (Option String) FeedPage := do
  let (data, nextCursor) ←
    if mode = "timeline" then
      match agent with
      | some a =>
        let r := a.getTimeline limit cursor
        pure (r.feed, r.cursor)
      | none => pure ([], none)
    else if mode = "search" then
      if jsTruthy searchQuery then
        match agent with
        | some a =>
          let r := a.searchPosts (searchQuery.getD "") limit cursor
          pure (r.posts.map wrapSearchPost, r.cursor)
        | none => Except.error nullAgentMsg
      else pure ([], none)
    else if mode = "feed" then
      let rawUrl := (jsOr feedUrl (some DISCOVER_FEED_URI)).getD ""
      let uri := resolveFeedUri agent rawUrl
      if jsTruthy uri then
        match agent with
        | some a =>
          let r := a.getFeed (uri.getD "") limit cursor
          pure (r.feed, r.cursor)
        | none => Except.error nullAgentMsg
      else pure ([], none)
    else
      if jsTruthy actor then
        match agent with
        | some a =>
          let r := a.getAuthorFeed (actor.getD "") limit cursor
          pure (r.feed, r.cursor)
        | none => Except.error nullAgentMsg
      else pure ([], none)
  let posts ← normalizeReplies data
  pure ⟨posts, nextCursor⟩

/-- The mode dispatch of fetchFeedImpl on its own (specification helper used
to state that the returned items are the upstream raw entries mapped through
the normalizer): the raw entries and cursor the selected branch obtains. -/
def rawFeedData (agent : Option FeedAgent) (mode : String)
    (actor feedUrl searchQuery : Option String) (limit : Nat)
    (cursor : Option String) : Except (Option String) (List RawNode × Option String) :=
  if mode = "timeline" then
    match agent with
    | some a => pure ((a.getTimeline limit cursor).feed, (a.getTimeline limit cursor).cursor)
    | none => pure ([], none)
  else if mode = "search" then
    if jsTruthy searchQuery then
      match agent with
      | some a =>
        pure (((a.searchPosts (searchQuery.getD "") limit cursor).posts).map wrapSearchPost,
          (a.searchPosts (searchQuery.getD "") limit cursor).cursor)
      | none => Except.error nullAgentMsg
    else pure ([], none)
  else if mode = "feed" then
    let uri := resolveFeedUri agent ((jsOr feedUrl (some DISCOVER_FEED_URI)).getD "")
    if jsTruthy uri then
      match agent with
      | some a => pure ((a.getFeed (uri.getD "") limit cursor).feed, (a.getFeed (uri.getD "") limit cursor).cursor)
      | none => Except.error nullAgentMsg
    else pure ([], none)
  else
    if jsTruthy actor then
      match agent with
      | some a => pure ((a.getAuthorFeed (actor.getD "") limit cursor).feed, (a.getAuthorFeed (actor.getD "") limit cursor).cursor)
      | none => Except.error nullAgentMsg
    else pure ([], none)

/-- Replaces the underlying post of a PostView, keeping every other field
(the spread `...prevItem` with a new post). -/
def PostView.withPost : PostView → RawPost → PostView
  | .mk _ rb rt ryt qt par q di dv el rs lk, p =>
    .mk p rb rt ryt qt par q di dv el rs lk

/-- Replaces the likers list of a PostView, keeping every other field. -/
def PostView.withLikers : PostView → List String → PostView
  | .mk p rb rt ryt qt par q di dv el rs _, lk =>
    .mk p rb rt ryt qt par q di dv el rs lk

/-- The view state a mutation operates on: the flat posts list (which may
contain nulls, since fetchFeed does not drop them) and the three thread
buckets. -/
structure ViewState where
  posts : List (Option PostView)
  threadFocused : Option PostView
  threadAncestors : List (Option PostView)
  threadReplies : List (Option PostView)

/-- The remote calls a mutation can issue, recorded in order. refetch stands
for the full fetchThread or fetchFeed reload of the revert path. -/
inductive RemoteCall where
  | deleteLike (likeUri : String)
  | like (uri cid : String)
  | getLikes (uri : String) (limit : Nat)
  | deleteRepost (repostUri : String)
  | repost (uri cid : String)
  | refetch
deriving DecidableEq, Repr

/-- The remote client as seen by the mutations: each write endpoint is an
oracle from its parameters to success or failure, and refetchedView is the
view state the revert-path reload would install. -/
structure MutAgent where
  deleteLike : String → Except (Option String) Unit
  like : String → String → Except (Option String) String
  getLikes : String → Nat → Except (Option String) (List String)
  deleteRepost : String → Except (Option String) Unit
  repost : String → String → Except (Option String) String
  refetchedView : ViewState

/-- The TypeError message raised by reading the post field of a null entry of
the posts list. -/
def nullPostMsg : Option String :=
  some "Cannot read properties of null (reading 'post')"

/-- posts.find scanning for the item with the given uri: reading the post
field of a null entry before a match raises a TypeError. -/
def findPostItem (uri : String) :
    List (Option PostView) → Except (Option String) (Option PostView)
  | [] => .ok none
  | none :: _ => .error nullPostMsg
  | some v :: rest =>
    if v.post.uri = some uri then .ok (some v) else findPostItem uri rest

/-- The list-mode state update: map over the posts, replacing the item whose
uri matches. A null entry anywhere in the list raises a TypeError. -/
def mapPostsByUri (uri : String) (f : PostView → PostView) :
    List (Option PostView) → Except (Option String) (List (Option PostView))
  | [] => .ok []
  | none :: _ => .error nullPostMsg
  | some v :: rest => do
    let tail ← mapPostsByUri uri f rest
    .ok ((if v.post.uri = some uri then some (f v) else some v) :: tail)

/-- First non-null element of a mapped search-result list (find(Boolean)). -/
def firstFound (l : List (Option PostView)) : Option PostView :=
  (l.find? Option.isSome).join

/-- The node lookup of likePost and repostPost: in thread mode search the
focused node, then the ancestors, then the replies; otherwise scan the posts
list (which can raise a TypeError on a null entry). -/
def locateTarget (mode : String) (st : ViewState) (uri : String) :
    Except (Option String) (Option PostView) :=
  if mode = "thread" then
    .ok ((checkNode uri st.threadFocused).orElse (fun _ =>
      (firstFound (st.threadAncestors.map (checkNode uri))).orElse (fun _ =>
        firstFound (st.threadReplies.map (checkNode uri)))))
  else
    findPostItem uri st.posts

/-- Applies a node transform to the active view: in thread mode through
updateThreadNode on the three buckets, otherwise by direct map-replace over
the posts list. -/
def applyTransform (mode : String) (uri : String) (f : PostView → PostView)
    (st : ViewState) : Except (Option String) ViewState :=
  if mode = "thread" then
    .ok { st with
      threadFocused := updateThreadNode uri f st.threadFocused,
      threadAncestors := updateThreadNodeOpts uri f st.threadAncestors,
      threadReplies := updateThreadNodeOpts uri f st.threadReplies }
  else do
    let ps ← mapPostsByUri uri f st.posts
    .ok { st with posts := ps }

/-- The cid resolution of likePost: the supplied cid, nullish-coalesced with
the cid of the located node when the lookup found one. -/
def resolvedLikeCid (cid : Option String) (found : Option PostView) : Option String :=
  match found with
  | some n => jsQQ cid n.post.cid
  | none => cid

/-- The cid resolution of repostPost, which uses logical-or instead of
nullish coalescing. -/
def resolvedRepostCid (cid : Option String) (found : Option PostView) : Option String :=
  match found with
  | some n => jsOr cid n.post.cid
  | none => cid

/-- The optimistic like transform (performUpdate inside likePost): flip the
like count, floored at zero on decrement, and set the viewer like state to
the pending sentinel or clear it. -/
def likePerformUpdate (isAlreadyLiked : Bool) (prevItem : PostView) : PostView :=
  let currentCount : Int := prevItem.post.likeCount.getD 0
  let oldViewer : Viewer := prevItem.post.viewer.getD ⟨none, none⟩
  prevItem.withPost { prevItem.post with
    likeCount := some (if isAlreadyLiked then max 0 (currentCount - 1)
      else currentCount + 1),
    viewer := some { oldViewer with
      like := if isAlreadyLiked then none else some "pending" } }

/-- The post-unlike transform (removeSelf): drop the current viewer from the
cached likers and clear the viewer like state. -/
def likeRemoveSelf (currentUserDid : Option String) (node : PostView) : PostView :=
  let v : Viewer := node.post.viewer.getD ⟨none, none⟩
  (node.withLikers (node.likers.filter (fun l => some l ≠ currentUserDid))).withPost
    { node.post with viewer := some { v with like := none } }

/-- The post-like transform (finalUpdate): attach the fetched likers and
replace the pending sentinel with the real like record uri. -/
def likeFinalUpdate (latestLikers : List String) (resUri : String)
    (node : PostView) : PostView :=
  let v : Viewer := node.post.viewer.getD ⟨none, none⟩
  (node.withLikers latestLikers).withPost
    { node.post with viewer := some { v with like := some resUri } }

/-- The optimistic repost transform (performUpdate inside repostPost). -/
def repostPerformUpdate (isAlreadyReposted : Bool) (prevItem : PostView) : PostView :=
  let currentCount : Int := prevItem.post.repostCount.getD 0
  let oldViewer : Viewer := prevItem.post.viewer.getD ⟨none, none⟩
  prevItem.withPost { prevItem.post with
    repostCount := some (if isAlreadyReposted then max 0 (currentCount - 1)
      else currentCount + 1),
    viewer := some { oldViewer with
      repost := if isAlreadyReposted then none else some "pending" } }

/-- The post-unrepost transform (clearRepost). -/
def repostClear (node : PostView) : PostView :=
  let v : Viewer := node.post.viewer.getD ⟨none, none⟩
  node.withPost { node.post with viewer := some { v with repost := none } }

/-- The post-repost transform (finalizeRepost). -/
def repostFinalize (resUri : String) (node : PostView) : PostView :=
  let v : Viewer := node.post.viewer.getD ⟨none, none⟩
  node.withPost { node.post with viewer := some { v with repost := some resUri } }

/-- Like mutation (likePost in BlueskyFeedProvider.tsx): locate the target to
learn the current direction and cid, silently stop without a session or
without a cid, apply the optimistic transform, then issue the remote call and
commit, or revert through a full refetch on remote failure. The result is the
final view state plus the remote calls issued, in order; the error case is a
TypeError escaping the mutation (a null entry hit while scanning or mapping
the posts list), which the internal try/catch of the source does not
intercept either, since React runs state updaters outside it. -/
def likePost (agent : Option MutAgent) (currentUserDid : Option String)
    (mode : String) (st : ViewState) (uri : String) (cid : Option String) :
    Except (Option String) (ViewState × List RemoteCall) := do
  match agent with
  | none => pure (st, [])
  | some ag => do
    let found ← locateTarget mode st uri
    let existingLikeUri : Option String :=
      found.bind (fun n => n.post.viewer.bind Viewer.like)
    let cidToUse : Option String := resolvedLikeCid cid found
    if ¬ jsTruthy cidToUse then pure (st, [])
    else do
      let isAlreadyLiked : Bool :=
        jsTruthy existingLikeUri && existingLikeUri ≠ some "pending"
      let st1 ← applyTransform mode uri (likePerformUpdate isAlreadyLiked) st
      if isAlreadyLiked then
        let lu := existingLikeUri.getD ""
        match ag.deleteLike lu with
        | .error _ => pure (ag.refetchedView, [.deleteLike lu, .refetch])
        | .ok _ => do
          let st2 ← applyTransform mode uri (likeRemoveSelf currentUserDid) st1
          pure (st2, [.deleteLike lu])
      else
        let cu := cidToUse.getD ""
        match ag.like uri cu with
        | .error _ => pure (ag.refetchedView, [.like uri cu, .refetch])
        | .ok resUri =>
          match ag.getLikes uri 5 with
          | .error _ =>
            pure (ag.refetchedView, [.like uri cu, .getLikes uri 5, .refetch])
          | .ok latestLikers => do
            let st2 ← applyTransform mode uri
              (likeFinalUpdate latestLikers resUri) st1
            pure (st2, [.like uri cu, .getLikes uri 5])

/-- Repost mutation (repostPost in BlueskyFeedProvider.tsx): same shape as
likePost, with the logical-or cid fallback of the source and no likers
fetch. -/
def repostPost (agent : Option MutAgent) (mode : String) (st : ViewState)
    (uri : String) (cid : Option String) :
    Except (Option String) (ViewState × List RemoteCall) := do
  match agent with
  | none => pure (st, [])
  | some ag => do
    let found ← locateTarget mode st uri
    let existingRepostUri : Option String :=
      found.bind (fun n => n.post.viewer.bind Viewer.repost)
    let cidToUse : Option String := resolvedRepostCid cid found
    if ¬ jsTruthy cidToUse then pure (st, [])
    else do
      let isAlreadyReposted : Bool :=
        jsTruthy existingRepostUri && existingRepostUri ≠ some "pending"
      let st1 ← applyTransform mode uri (repostPerformUpdate isAlreadyReposted) st
      if isAlreadyReposted then
        let ru := existingRepostUri.getD ""
        match ag.deleteRepost ru with
        | .error _ => pure (ag.refetchedView, [.deleteRepost ru, .refetch])
        | .ok _ => do
          let st2 ← applyTransform mode uri repostClear st1
          pure (st2, [.deleteRepost ru])
      else
        let cu := cidToUse.getD ""
        match ag.repost uri cu with
        | .error _ => pure (ag.refetchedView, [.repost uri cu, .refetch])
        | .ok resUri => do
          let st2 ← applyTransform mode uri (repostFinalize resUri) st1
          pure (st2, [.repost uri cu])

/-! Helper lemmas. -/

/-- Strong induction along sizeOf, used for the recursive tree types. -/
theorem sizeOfInd {α : Type} [SizeOf α] {P : α → Prop}
    (step : ∀ x : α, (∀ y : α, sizeOf y < sizeOf x → P y) → P x) : ∀ x, P x := by
  intro x
  generalize h : sizeOf x = n
  induction n using Nat.strong_induction_on generalizing x with
  | _ n ih =>
    subst h
    exact step x fun y hy => ih (sizeOf y) hy y rfl

/-- A member of the replies list is sizeOf-smaller than the whole view. -/
theorem sizeOf_mem_replies {y : PostView} {p rb rt ryt qt par q di dv el lk}
    {replies : List PostView} (h : y ∈ replies) :
    sizeOf y < sizeOf (PostView.mk p rb rt ryt qt par q di dv el replies lk) := by
  have hm := List.sizeOf_lt_of_mem h
  simp only [PostView.mk.sizeOf_spec]
  omega

/-- A zero occurrence sum makes every element occurrence-free. -/
theorem countOccList_zero {u : String} {l : List PostView}
    (h : countOccList u l = 0) : ∀ y ∈ l, countOcc u y = 0 := by
  induction l with
  | nil => intro y hy; cases hy
  | cons a as ih =>
    intro y hy
    rw [countOccList] at h
    rcases List.mem_cons.mp hy with hy | hy
    · subst hy; omega
    · exact ih (by omega) y hy

/-- updateThreadNodeList is the pointwise map of updateThreadNodeGo. -/
theorem updateThreadNodeList_eq_map (u : String) (f : PostView → PostView)
    (l : List PostView) :
    updateThreadNodeList u f l = l.map (updateThreadNodeGo u f) := by
  induction l with
  | nil => rfl
  | cons a as ih => rw [updateThreadNodeList, ih, List.map]

/-- A list whose elements are all fixed by updateThreadNodeGo is fixed by
updateThreadNodeList. -/
theorem updateThreadNodeList_id {u : String} {f : PostView → PostView}
    {l : List PostView} (h : ∀ y ∈ l, updateThreadNodeGo u f y = y) :
    updateThreadNodeList u f l = l := by
  induction l with
  | nil => rfl
  | cons a as ih =>
    rw [updateThreadNodeList, h a (List.mem_cons_self a as),
      ih fun y hy => h y (List.mem_cons_of_mem a hy)]

/-- A tree containing no occurrence of the target uri is returned unchanged
by the single-node tree update. -/
theorem updateThreadNodeGo_id (u : String) (f : PostView → PostView) :
    ∀ v : PostView, countOcc u v = 0 → updateThreadNodeGo u f v = v := by
  refine sizeOfInd fun v ih => ?_
  cases v with
  | mk p rb rt ryt qt par q di dv el replies lk =>
    intro h
    rw [countOcc] at h
    have huri : ¬ p.uri = some u := by
      intro hu
      simp [hu] at h
    rw [if_neg huri] at h
    have hl : countOccList u replies = 0 := by omega
    have hfix : updateThreadNodeList u f replies = replies :=
      updateThreadNodeList_id fun y hy =>
        ih y (sizeOf_mem_replies hy) (countOccList_zero hl y hy)
    rw [updateThreadNodeGo]
    simp only [PostView.post, huri, if_false, hfix]
    split <;> rfl

/-! Claim C10: the transform is applied at the shallowest matching node and
the function does not recurse into a matching node. -/

/-- C10: when the post uri of a node equals the target uri, updateThreadNode
returns the transform of that node directly, without recursing into its
replies; any occurrence of the same uri inside a descendant of the matching
node is therefore left untransformed (it appears in the result exactly as the
transform leaves it). -/
theorem claim10_shallowest_match (v : PostView) (u : String)
    (f : PostView → PostView) (h : v.post.uri = some u) :
    updateThreadNode u f (some v) = some (f v) := by
  cases v with
  | mk p rb rt ryt qt par q di dv el replies lk =>
    rw [PostView.post] at h
    rw [updateThreadNode, updateThreadNodeGo]
    simp only [PostView.post, h, if_true]

/-- Witness for C10 at a concrete two-node tree in which the target uri also
occurs at a child: the child occurrence is untransformed because the
transform used here leaves the replies field alone. -/
theorem claim10_witness :
    (PostView.mk ⟨some "at://p/1", none, none, none, none, none, none⟩
        none none none none none none [] none none
        [.mk ⟨some "at://p/1", none, none, none, none, none, none⟩
          none none none none none none [] none none [] []] []).post.uri
      = some "at://p/1"
    ∧ updateThreadNode "at://p/1" (fun w => w.withLikers ["did:w"])
        (some (PostView.mk ⟨some "at://p/1", none, none, none, none, none, none⟩
          none none none none none none [] none none
          [.mk ⟨some "at://p/1", none, none, none, none, none, none⟩
            none none none none none none [] none none [] []] []))
      = some ((PostView.mk ⟨some "at://p/1", none, none, none, none, none, none⟩
          none none none none none none [] none none
          [.mk ⟨some "at://p/1", none, none, none, none, none, none⟩
            none none none none none none [] none none [] []] []).withLikers ["did:w"]) :=
  ⟨rfl, claim10_shallowest_match _ _ _ rfl⟩

/-! Claim C8: optimistic decrements never go below zero. -/

/-- C8: on the unlike and unrepost direction the optimistic transforms set
the count to max 0 (count - 1), so the resulting count is never negative and
decrementing a count of 0 yields 0. -/
theorem claim8_count_floor (prevItem : PostView) :
    (likePerformUpdate true prevItem).post.likeCount
        = some (max 0 (prevItem.post.likeCount.getD 0 - 1))
    ∧ (0 : Int) ≤ ((likePerformUpdate true prevItem).post.likeCount.getD 0)
    ∧ (repostPerformUpdate true prevItem).post.repostCount
        = some (max 0 (prevItem.post.repostCount.getD 0 - 1))
    ∧ (0 : Int) ≤ ((repostPerformUpdate true prevItem).post.repostCount.getD 0) := by
  cases prevItem with
  | mk p rb rt ryt qt par q di dv el replies lk =>
    refine ⟨rfl, ?_, rfl, ?_⟩ <;>
      simp [likePerformUpdate, repostPerformUpdate, PostView.withPost, PostView.post]

/-! Claim C6: a tree without the target uri is unchanged by the update. -/

/-- C6: for a tree, a sequence of trees, and a null node, when the target uri
occurs at no node, updateThreadNode returns its input structurally
unchanged, for every transform. -/
theorem claim6_no_occurrence_identity (u : String) (f : PostView → PostView)
    (v : PostView) (ns : List PostView)
    (h1 : countOcc u v = 0) (h2 : countOccList u ns = 0) :
    updateThreadNode u f (some v) = some v
    ∧ updateThreadNodeList u f ns = ns
    ∧ updateThreadNode u f none = none := by
  refine ⟨?_, ?_, rfl⟩
  · rw [updateThreadNode, updateThreadNodeGo_id u f v h1]
  · exact updateThreadNodeList_id fun y hy =>
      updateThreadNodeGo_id u f y (countOccList_zero h2 y hy)

/-- Witness for C6 at a concrete two-level tree whose uris differ from the
target. -/
theorem claim6_witness :
    countOcc "at://other"
        (PostView.mk ⟨some "at://p/1", none, none, none, none, none, none⟩
          none none none none none none [] none none
          [.mk ⟨some "at://p/2", none, none, none, none, none, none⟩
            none none none none none none [] none none [] []] []) = 0
    ∧ updateThreadNode "at://other" (fun w => w.withLikers ["did:w"])
        (some (PostView.mk ⟨some "at://p/1", none, none, none, none, none, none⟩
          none none none none none none [] none none
          [.mk ⟨some "at://p/2", none, none, none, none, none, none⟩
            none none none none none none [] none none [] []] []))
      = some (PostView.mk ⟨some "at://p/1", none, none, none, none, none, none⟩
          none none none none none none [] none none
          [.mk ⟨some "at://p/2", none, none, none, none, none, none⟩
            none none none none none none [] none none [] []] []) :=
  ⟨rfl, (claim6_no_occurrence_identity _ _ _ [] (by rfl) (by rfl)).1⟩

/-! Claim C7: unique-occurrence update touches only the path to the match. -/

/-- get? hits are members. -/
theorem get?_mem' {α : Type} : ∀ {l : List α} {i : Nat} {a : α},
    l.get? i = some a → a ∈ l := by
  intro l
  induction l with
  | nil => intro i a h; cases h
  | cons x xs ih =>
    intro i a h
    cases i with
    | zero => cases h; exact List.mem_cons_self _ _
    | succ j => exact List.mem_cons_of_mem x (ih h)

/-- get? hits witness an in-bounds index. -/
theorem get?_lt_length {α : Type} : ∀ {l : List α} {i : Nat} {a : α},
    l.get? i = some a → i < l.length := by
  intro l
  induction l with
  | nil => intro i a h; cases h
  | cons x xs ih =>
    intro i a h
    cases i with
    | zero => simp [List.length]
    | succ j => exact Nat.succ_lt_succ (ih h)

/-- A member contributes at most the total occurrence sum. -/
theorem countOcc_mem_le {u : String} : ∀ {l : List PostView} {y : PostView},
    y ∈ l → countOcc u y ≤ countOccList u l := by
  intro l
  induction l with
  | nil => intro y hy; cases hy
  | cons a as ih =>
    intro y hy
    rw [countOccList]
    rcases List.mem_cons.mp hy with hy | hy
    · subst hy; omega
    · have := ih hy; omega

/-- The occurrence count of a subtree bounds from below the count of any
tree it sits inside of. -/
theorem countOcc_getAtPath_le {u : String} : ∀ (p : List Nat) (T n : PostView),
    getAtPath T p = some n → countOcc u n ≤ countOcc u T := by
  intro p
  induction p with
  | nil => intro T n h; cases h; exact Nat.le_refl _
  | cons i p' ih =>
    intro T n h
    cases T with
    | mk pp rb rt ryt qt par q di dv el replies lk =>
      rw [getAtPath] at h
      simp only [PostView.replies] at h
      cases hc : replies.get? i with
      | none => rw [hc] at h; cases h
      | some c =>
        rw [hc] at h
        have h1 := ih c n h
        have h2 := countOcc_mem_le (u := u) (get?_mem' hc)
        rw [countOcc]
        omega

/-- A node whose uri matches contributes at least one occurrence. -/
theorem countOcc_pos {u : String} {n : PostView} (h : n.post.uri = some u) :
    1 ≤ countOcc u n := by
  cases n with
  | mk p rb rt ryt qt par q di dv el replies lk =>
    rw [PostView.post] at h
    rw [countOcc, if_pos h]
    omega

/-- A map that fixes every element is the identity. -/
theorem list_map_id {α : Type} (g : α → α) :
    ∀ l : List α, (∀ y ∈ l, g y = y) → l.map g = l := by
  intro l
  induction l with
  | nil => intro _; rfl
  | cons a as ih =>
    intro h
    rw [List.map, h a (List.mem_cons_self a as),
      ih fun y hy => h y (List.mem_cons_of_mem a hy)]

/-- When the whole occurrence sum of a list is concentrated in the element at
index i, mapping the tree update over the list only rewrites that slot. -/
theorem map_upd_eq_set {u : String} {f : PostView → PostView} :
    ∀ (l : List PostView) (i : Nat) (c : PostView),
      l.get? i = some c → countOccList u l = countOcc u c →
      l.map (updateThreadNodeGo u f) = l.set i (updateThreadNodeGo u f c) := by
  intro l
  induction l with
  | nil => intro i c h; cases h
  | cons a as ih =>
    intro i c h hsum
    rw [countOccList] at hsum
    cases i with
    | zero =>
      cases h
      have hz : countOccList u as = 0 := by omega
      rw [List.map, List.set]
      rw [list_map_id _ as fun y hy =>
        updateThreadNodeGo_id u f y (countOccList_zero hz y hy)]
    | succ j =>
      have hmem : c ∈ as := get?_mem' h
      have hle := countOcc_mem_le (u := u) hmem
      have ha : countOcc u a = 0 := by omega
      have has : countOccList u as = countOcc u c := by omega
      rw [List.map, List.set, updateThreadNodeGo_id u f a ha, ih j c h has]

/-- C7: when the target uri occurs exactly once in the tree, namely at the
node n sitting at path p, updateThreadNode rewrites exactly the path to n:
the result is the path replacement replaceAtPath, the node at p becomes the
transform of n, and every subtree whose path neither extends p nor is a
prefix of p is structurally unchanged. -/
theorem claim7_unique_update : ∀ (p : List Nat) (T n : PostView) (u : String)
    (f : PostView → PostView),
    getAtPath T p = some n → n.post.uri = some u → countOcc u T = 1 →
    updateThreadNode u f (some T) = some (replaceAtPath f T p)
    ∧ getAtPath (replaceAtPath f T p) p = some (f n)
    ∧ ∀ q : List Nat, pathPre q p = false → pathPre p q = false →
        getAtPath (replaceAtPath f T p) q = getAtPath T q := by
  intro p
  induction p with
  | nil =>
    intro T n u f h1 h2 h3
    cases h1
    refine ⟨claim10_shallowest_match T u f h2, rfl, ?_⟩
    intro q _ hq2
    simp [pathPre] at hq2
  | cons i p' ih =>
    intro T n u f h1 h2 h3
    cases T with
    | mk pp rb rt ryt qt par q0 di dv el replies lk =>
      rw [getAtPath] at h1
      simp only [PostView.replies] at h1
      cases hc : replies.get? i with
      | none => rw [hc] at h1; cases h1
      | some c =>
        rw [hc] at h1
        have hn1 : 1 ≤ countOcc u n := countOcc_pos h2
        have hcn : countOcc u n ≤ countOcc u c := countOcc_getAtPath_le p' c n h1
        have hcl : countOcc u c ≤ countOccList u replies :=
          countOcc_mem_le (get?_mem' hc)
        rw [countOcc] at h3
        have huri : ¬ (pp.uri = some u) := by
          intro hu
          rw [if_pos hu] at h3
          omega
        rw [if_neg huri] at h3
        have hc1 : countOcc u c = 1 := by omega
        have hlen : i < replies.length := get?_lt_length hc
        obtain ⟨ih1, ih2, ih3⟩ := ih c n u f h1 h2 hc1
        have hGo : updateThreadNodeGo u f c = replaceAtPath f c p' :=
          Option.some.inj ih1
        have hrepl : replaceAtPath f (PostView.mk pp rb rt ryt qt par q0 di dv el replies lk) (i :: p')
            = PostView.mk pp rb rt ryt qt par q0 di dv el
                (replies.set i (replaceAtPath f c p')) lk := by
          rw [replaceAtPath]
          simp only [PostView.replies, hc, PostView.withReplies]
        refine ⟨?_, ?_, ?_⟩
        · rw [updateThreadNode, updateThreadNodeGo]
          simp only [PostView.post, huri, if_false]
          rw [if_pos (by omega : replies.length > 0)]
          rw [updateThreadNodeList_eq_map, map_upd_eq_set replies i c hc (by omega),
            hGo, hrepl]
        · rw [hrepl, getAtPath]
          simp only [PostView.replies]
          rw [List.get?_set_eq_of_lt _ hlen]
          exact ih2
        · intro q hq1 hq2
          cases q with
          | nil => simp [pathPre] at hq1
          | cons j q' =>
            rw [hrepl]
            rw [getAtPath, getAtPath]
            simp only [PostView.replies]
            by_cases hij : j = i
            · subst hij
              simp only [pathPre, beq_self_eq_true, Bool.true_and] at hq1 hq2
              rw [List.get?_set_eq_of_lt _ hlen, hc]
              exact ih3 q' hq1 hq2
            · rw [List.get?_set_ne (replaceAtPath f c p') replies
                (fun h => hij h.symm)]

/-- Concrete target node for the C7 witness. -/
def c7N : PostView :=
  .mk ⟨some "at://t", none, none, none, none, none, none⟩
    none none none none none none [] none none [] []

/-- Concrete two-node tree for the C7 witness, holding the target uri exactly
once, at path [0]. -/
def c7T : PostView :=
  .mk ⟨some "at://r", none, none, none, none, none, none⟩
    none none none none none none [] none none [c7N] []

/-- Witness for C7 at the concrete tree c7T. -/
theorem claim7_witness :
    getAtPath c7T [0] = some c7N
    ∧ c7N.post.uri = some "at://t"
    ∧ countOcc "at://t" c7T = 1
    ∧ updateThreadNode "at://t" (fun w => w.withLikers ["did:w"]) (some c7T)
        = some (replaceAtPath (fun w => w.withLikers ["did:w"]) c7T [0]) := by
  refine ⟨rfl, rfl, rfl, ?_⟩
  exact (claim7_unique_update [0] c7T c7N "at://t" _ (by rfl) (by rfl) (by rfl)).1

/-! Claim C3: a thread response without a resolvable root post yields the
empty decomposition. -/

/-- C3: whenever the thread uri is truthy and the response root lacks a
resolvable post uri, fetchThreadImpl returns (without throwing: it is a total
function into ThreadState) the empty decomposition: ancestors empty, focused
null, replies empty, with loading cleared and the not-found message set. -/
theorem claim3_empty_decomposition (threadUri : Option String)
    (root : Option ThreadNode) (st : ThreadState)
    (hu : jsTruthy threadUri = true)
    (hroot : jsTruthy ((root.bind (fun t => t.content.post)).bind RawPost.uri) = false) :
    fetchThreadImpl threadUri (.ok root) st =
      ⟨false, some "Post not found or blocked", [], none, []⟩ := by
  rw [fetchThreadImpl]
  simp only [hu, hroot, Bool.not_true, Bool.false_eq_true, if_false,
    Bool.not_false, if_true]
  rfl

/-- Witness for C3 with an undefined response root. -/
theorem claim3_witness :
    fetchThreadImpl (some "at://x") (.ok none) ⟨false, none, [], none, []⟩ =
      ⟨false, some "Post not found or blocked", [], none, []⟩ :=
  claim3_empty_decomposition (some "at://x") none _ (by rfl) (by rfl)

/-! Claim C4: the ancestor walk follows the chain to its end, skips postless
nodes, and is reversed to oldest-first order. -/

/-- A parent pointer is sizeOf-smaller than the node holding it. -/
theorem sizeOf_threadNode_parent (c : RawNode) (p : Option ThreadNode) :
    sizeOf p < sizeOf (some (ThreadNode.mk c p)) := by
  simp only [Option.some.sizeOf_spec, ThreadNode.mk.sizeOf_spec]
  omega

/-- The collect-while-walking loop of fetchThreadImpl equals filtering the
full parent chain by presence of a post payload: the walk terminates exactly
at an absent chain pointer and continues past postless nodes. -/
theorem walkAncestors_eq_filter : ∀ t : Option ThreadNode,
    walkAncestors t = (chainToList t).filter (fun a => a.content.post.isSome) := by
  refine sizeOfInd fun t ih => ?_
  cases t with
  | none => rfl
  | some tn =>
    cases tn with
    | mk c p =>
      rw [walkAncestors, walkAncestorsGo, chainToList, chainGo, List.filter,
        ih p (sizeOf_threadNode_parent c p)]
      cases hcp : (ThreadNode.mk c p).content.post.isSome with
      | true =>
        simp only [ThreadNode.content] at hcp
        simp [hcp]
      | false =>
        simp only [ThreadNode.content] at hcp
        simp [hcp]

/-- C4: for a successful thread response with a resolvable root post, when
normalization succeeds, the ancestors bucket is exactly the full parent chain
(terminated only by the absent chain pointer), filtered to the nodes carrying
a post payload (gaps are skipped, not treated as termination), reversed to
oldest-ancestor-first, nearest-parent-last order, and mapped through the
normalizer. -/
theorem claim4_ancestor_walk (threadUri : Option String) (st : ThreadState)
    (tn : ThreadNode) (vs : List (Option PostView)) (fv : Option PostView)
    (rs : List (Option PostView))
    (hu : jsTruthy threadUri = true)
    (hroot : jsTruthy (tn.content.post.bind RawPost.uri) = true)
    (hanc : normalizeReplies
        ((((chainToList tn.parent).filter (fun a => a.content.post.isSome)).reverse).map
          ThreadNode.content) = .ok vs)
    (hfoc : normalizePost tn.content = .ok fv)
    (hreps : normalizeReplies (tn.content.replies.getD []) = .ok rs) :
    (fetchThreadImpl threadUri (.ok (some tn)) st).threadAncestors = vs := by
  rw [fetchThreadImpl]
  rw [← walkAncestors_eq_filter] at hanc
  simp only [hu, Option.some_bind, hroot, Bool.not_true, Bool.false_eq_true,
    if_false, hanc, hfoc, hreps, Bind.bind, Except.bind, pure, Except.pure]
  rfl

/-- Oldest ancestor post of the C4 witness chain. -/
def c4pb : RawPost := ⟨some "at://b", none, none, none, none, none, none⟩

/-- Nearest parent post of the C4 witness chain. -/
def c4pa : RawPost := ⟨some "at://a", none, none, none, none, none, none⟩

/-- Top of the C4 witness chain (oldest ancestor, carries a post). -/
def c4B : ThreadNode := .mk (.mk (some c4pb) RawPost.void none none none) none

/-- Gap node of the C4 witness chain: present in the chain, but without a
post payload (for example a blocked ancestor). -/
def c4Gap : ThreadNode := .mk (.mk none RawPost.void none none none) (some c4B)

/-- Nearest parent of the C4 witness chain. -/
def c4A : ThreadNode := .mk (.mk (some c4pa) RawPost.void none none none) (some c4Gap)

/-- Root of the C4 witness thread. -/
def c4Root : ThreadNode :=
  .mk (.mk (some ⟨some "at://r", none, none, none, none, none, none⟩)
    RawPost.void none none none) (some c4A)

/-- Witness for C4: the gap is skipped, the walk continues past it to the
chain end, and the bucket is ordered oldest ancestor first. -/
theorem claim4_witness :
    (fetchThreadImpl (some "at://r") (.ok (some c4Root))
        ⟨false, none, [], none, []⟩).threadAncestors
      = [some (.mk c4pb none none none none none none [] none none [] []),
         some (.mk c4pa none none none none none none [] none none [] [])] :=
  claim4_ancestor_walk (some "at://r") ⟨false, none, [], none, []⟩ c4Root
    [some (.mk c4pb none none none none none none [] none none [] []),
     some (.mk c4pa none none none none none none [] none none [] [])]
    (some (.mk ⟨some "at://r", none, none, none, none, none, none⟩
      none none none none none none [] none none [] []))
    [] (by rfl) (by rfl) (by rfl) (by rfl) (by rfl)

/-! Claim C2: the feed fetcher maps raw entries through the normalizer, but
does not drop null results. -/

/-- Agent for the C2 counterexample: the search endpoint returns a single
result without a uri (for example a blocked or deleted post). -/
def c2Agent : FeedAgent where
  getTimeline := fun _ _ => ⟨[], none⟩
  searchPosts := fun _ _ _ => ⟨[RawPost.void], none⟩
  getFeed := fun _ _ _ => ⟨[], none⟩
  getAuthorFeed := fun _ _ _ => ⟨[], none⟩
  resolveHandle := fun _ => none

/-- Counterexample to C2 as stated: a search fetch whose single raw entry
normalizes to null returns an items sequence that still contains that null
entry, instead of dropping it. -/
theorem claim2_counterexample :
    fetchFeedImpl (some c2Agent) "search" none none (some "wii") 25 none
      = .ok ⟨[none], none⟩
    ∧ ([(none : Option PostView)] ≠ []) :=
  ⟨rfl, by simp⟩

/-- Bind of a pure value computes. -/
theorem exceptPureBind {e a b : Type} (x : a) (f : a → Except e b) :
    ((pure x : Except e a) >>= f) = f x := rfl

/-- Bind of an error propagates the error. -/
theorem exceptErrBind {e a b : Type} (m : e) (f : a → Except e b) :
    ((Except.error m : Except e a) >>= f) = Except.error m := rfl

/-- Binding the page constructor over a normalization run is the same as
mapping it. -/
theorem bindMapAux (data : List RawNode) (c : Option String) :
    ((normalizeReplies data).bind fun ps =>
        Except.ok (⟨ps, c⟩ : FeedPage))
      = (normalizeReplies data).map fun ps => ⟨ps, c⟩ := by
  cases normalizeReplies data <;> rfl

/-- C2 as amended: in every mode, fetchFeedImpl returns exactly the raw
entries selected by the mode dispatch, each passed through the normalizer in
order with null results retained, and the upstream cursor passed through
unmodified. -/
theorem claim2_amended (agent : Option FeedAgent) (mode : String)
    (actor feedUrl searchQuery : Option String) (limit : Nat)
    (cursor : Option String) :
    fetchFeedImpl agent mode actor feedUrl searchQuery limit cursor =
      (rawFeedData agent mode actor feedUrl searchQuery limit cursor).bind
        (fun dc => (normalizeReplies dc.1).map fun ps => ⟨ps, dc.2⟩) := by
  unfold fetchFeedImpl rawFeedData
  by_cases h1 : mode = "timeline"
  · subst h1
    cases agent with
    | some a =>
      simp only [reduceIte, exceptPureBind, exceptErrBind]
      exact bindMapAux _ _
    | none =>
      simp only [reduceIte, exceptPureBind, exceptErrBind]
      exact bindMapAux _ _
  · simp only [if_neg h1]
    by_cases h2 : mode = "search"
    · subst h2
      by_cases h3 : jsTruthy searchQuery = true
      · simp only [reduceIte, if_pos h3]
        cases agent with
        | some a =>
          simp only [exceptPureBind]
          exact bindMapAux _ _
        | none => rfl
      · simp only [reduceIte, if_neg h3, exceptPureBind]
        exact bindMapAux _ _
    · simp only [if_neg h2]
      by_cases h4 : mode = "feed"
      · subst h4
        by_cases h5 : jsTruthy (resolveFeedUri agent
            ((jsOr feedUrl (some DISCOVER_FEED_URI)).getD "")) = true
        · simp only [reduceIte, if_pos h5]
          cases agent with
          | some a =>
            simp only [exceptPureBind]
            exact bindMapAux _ _
          | none => rfl
        · simp only [reduceIte, if_neg h5, exceptPureBind]
          exact bindMapAux _ _
      · simp only [if_neg h4]
        by_cases h6 : jsTruthy actor = true
        · simp only [reduceIte, if_pos h6]
          cases agent with
          | some a =>
            simp only [exceptPureBind]
            exact bindMapAux _ _
          | none => rfl
        · simp only [reduceIte, if_neg h6, exceptPureBind]
          exact bindMapAux _ _

/-! Claim C5: totality of the normalizer. The code has one unguarded
property access: for a recordWithMedia embed the nested record is read as
embed.record.record without optional chaining, so a recordWithMedia embed
with no record field raises a TypeError instead of degrading to a null
quote facet. -/

/-- A malformed embed: tagged recordWithMedia, but carrying no record. -/
def c5BadEmbed : Embed :=
  ⟨some recordWithMediaType, none, none, none, none, none, none, none, none⟩

/-- A raw post node carrying the malformed embed. -/
def c5Node : RawNode :=
  .mk none ⟨some "at://p/1", none, some c5BadEmbed, none, none, none, none⟩
    none none none

/-- C5 evaluation at the failing input: flattenEmbed, and hence
normalizePost, raise a TypeError on a recordWithMedia embed without a record
field, instead of degrading to an absent quote facet. -/
theorem claim5_malformed_embed_throws :
    flattenEmbed (some c5BadEmbed) = .error undefinedRecordMsg
    ∧ normalizePost c5Node = .error undefinedRecordMsg :=
  ⟨rfl, rfl⟩

/-! Claim C9: preconditions for like and repost mutations. -/

/-- A trivially succeeding mutation agent for the C9 theorems. -/
def c9Agent : MutAgent where
  deleteLike := fun _ => .ok ()
  like := fun _ _ => .ok "at://like/1"
  getLikes := fun _ _ => .ok []
  deleteRepost := fun _ => .ok ()
  repost := fun _ _ => .ok "at://rp/1"
  refetchedView := ⟨[], none, [], []⟩

/-- Counterexample to C9 as stated: in list mode with a null entry in the
posts list (which feed fetching can produce, since it keeps nulls), a like
attempt without a session-held cid throws a TypeError while scanning the
list, instead of returning silently. -/
theorem claim9_counterexample :
    likePost (some c9Agent) none "feed" ⟨[none], none, [], []⟩ "at://x" none
      = .error nullPostMsg := rfl

/-- C9 as amended: a like or repost mutation without an active session, or
whose target lookup succeeds without yielding a truthy cid, is a silent
no-op: the result is a non-error, the view state is returned unchanged, and
no remote call is recorded. (The proviso that the lookup succeeds excludes
only list-mode scans that hit a null posts entry, which throw instead.) -/
theorem claim9_precondition_noop (ag : MutAgent) (cu : Option String)
    (mode : String) (st : ViewState) (uri : String) (cid : Option String)
    (found : Option PostView)
    (hfound : locateTarget mode st uri = .ok found)
    (hcidLike : jsTruthy (resolvedLikeCid cid found) = false)
    (hcidRepost : jsTruthy (resolvedRepostCid cid found) = false) :
    likePost none cu mode st uri cid = .ok (st, [])
    ∧ likePost (some ag) cu mode st uri cid = .ok (st, [])
    ∧ repostPost none mode st uri cid = .ok (st, [])
    ∧ repostPost (some ag) mode st uri cid = .ok (st, []) := by
  refine ⟨rfl, ?_, rfl, ?_⟩
  · rw [likePost]
    simp only [hfound, exceptPureBind, hcidLike, Bind.bind, Except.bind]
    rfl
  · rw [repostPost]
    simp only [hfound, exceptPureBind, hcidRepost, Bind.bind, Except.bind]
    rfl

/-- Witness for the amended C9 in thread mode on an empty thread view, with
no cid supplied. -/
theorem claim9_witness :
    likePost (some c9Agent) none "thread" ⟨[], none, [], []⟩ "at://x" none
      = .ok (⟨[], none, [], []⟩, [])
    ∧ repostPost (some c9Agent) "thread" ⟨[], none, [], []⟩ "at://x" none
      = .ok (⟨[], none, [], []⟩, []) :=
  ⟨(claim9_precondition_noop c9Agent none "thread" ⟨[], none, [], []⟩ "at://x"
      none none (by rfl) (by rfl) (by rfl)).2.1,
   (claim9_precondition_noop c9Agent none "thread" ⟨[], none, [], []⟩ "at://x"
      none none (by rfl) (by rfl) (by rfl)).2.2.2⟩

/-! Claim C1: renormalization. -/

mutual

/-- A PostView is plain when it carries no repost wrapper data, no parent
linkage and no likers, recursively through its replies: exactly the views on
which renormalization is the identity. -/
def plainView : PostView → Bool
  | .mk _ rb rt _ _ par _ _ _ _ replies lk =>
    rb.isNone && rt.isNone && par.isNone && lk.isEmpty && plainViewList replies

/-- plainView over a list of views. -/
def plainViewList : List PostView → Bool
  | [] => true
  | v :: vs => plainView v && plainViewList vs

end

/-- toRawList is the pointwise map of toRaw. -/
theorem toRawList_eq_map : ∀ l : List PostView,
    PostView.toRawList l = l.map PostView.toRaw := by
  intro l
  induction l with
  | nil => rfl
  | cons a as ih => rw [PostView.toRawList, ih, List.map]

/-- renormList is the pointwise map of renorm. -/
theorem renormList_eq_map : ∀ l : List PostView,
    PostView.renormList l = l.map PostView.renorm := by
  intro l
  induction l with
  | nil => rfl
  | cons a as ih => rw [PostView.renormList, ih, List.map]

/-- Dropping nulls from a list of defined values is the underlying map. -/
theorem filterMap_id_map_some {α β : Type} (g : α → β) :
    ∀ l : List α, (l.map fun w => some (g w)).filterMap id = l.map g := by
  intro l
  induction l with
  | nil => rfl
  | cons a as ih => simp only [List.map, List.filterMap_cons, id, ih]

/-- Every element of a plain list is plain. -/
theorem plainViewList_mem : ∀ {l : List PostView}, plainViewList l = true →
    ∀ y ∈ l, plainView y = true := by
  intro l
  induction l with
  | nil => intro _ y hy; cases hy
  | cons a as ih =>
    intro h y hy
    rw [plainViewList, Bool.and_eq_true] at h
    rcases List.mem_cons.mp hy with hy | hy
    · subst hy; exact h.1
    · exact ih h.2 y hy

/-- A member of the replies field is sizeOf-smaller than the raw node. -/
theorem sizeOf_mem_rawReplies {r : RawNode} {l : List RawNode}
    {post : Option RawPost} {asPost : RawPost} {reason : Option Reason}
    {rp : Option RawNode} (h : r ∈ l) :
    sizeOf r < sizeOf (RawNode.mk post asPost reason rp (some l)) := by
  have hm := List.sizeOf_lt_of_mem h
  simp only [RawNode.mk.sizeOf_spec, Option.some.sizeOf_spec]
  omega

/-- Renormalization is the identity on plain views. -/
theorem renorm_eq_self_of_plain : ∀ v : PostView, plainView v = true →
    PostView.renorm v = v := by
  refine sizeOfInd fun v ih => ?_
  cases v with
  | mk p rb rt ryt qt par q di dv el replies lk =>
    intro hp
    rw [plainView] at hp
    simp only [Bool.and_eq_true, Option.isNone_iff_eq_none,
      List.isEmpty_iff] at hp
    obtain ⟨⟨⟨⟨hrb, hrt⟩, hpar⟩, hlk⟩, hrep⟩ := hp
    subst hrb; subst hrt; subst hpar; subst hlk
    rw [PostView.renorm, renormList_eq_map,
      list_map_id _ replies fun y hy =>
        ih y (sizeOf_mem_replies hy) (plainViewList_mem hrep y hy)]

/-- Every entry of a successful replies normalization comes from normalizing
one of the raw entries. -/
theorem normalizeReplies_mem : ∀ {l : List RawNode} {lvs : List (Option PostView)},
    normalizeReplies l = .ok lvs → ∀ o ∈ lvs, ∃ r ∈ l, normalizePost r = .ok o := by
  intro l
  induction l with
  | nil =>
    intro lvs h o ho
    rw [normalizeReplies] at h
    cases h
    cases ho
  | cons n ns ih =>
    intro lvs h o ho
    rw [normalizeReplies] at h
    cases hv : normalizePost n with
    | error m =>
      simp only [hv, Bind.bind, Except.bind] at h
      exact Except.noConfusion h
    | ok v0 =>
      simp only [hv, Bind.bind, Except.bind] at h
      cases hvs : normalizeReplies ns with
      | error m =>
        simp only [hvs] at h
        exact Except.noConfusion h
      | ok vs0 =>
        simp only [hvs, pure, Except.pure, Except.ok.injEq] at h
        subst h
        rcases List.mem_cons.mp ho with ho | ho
        · exact ⟨n, List.mem_cons_self n ns, ho ▸ hv⟩
        · obtain ⟨r, hr, hro⟩ := ih hvs o ho
          exact ⟨r, List.mem_cons_of_mem n hr, hro⟩

/-- When every view of a list renormalizes cleanly, normalizing the list read
back as raw nodes yields exactly the renormalized views. -/
theorem normalizeReplies_toRaw : ∀ ws : List PostView,
    (∀ w ∈ ws, normalizePost w.toRaw = .ok (some w.renorm)) →
    normalizeReplies (PostView.toRawList ws)
      = .ok (ws.map fun w => some w.renorm) := by
  intro ws
  induction ws with
  | nil => intro _; rfl
  | cons w ws ih =>
    intro h
    rw [PostView.toRawList, normalizeReplies, h w (List.mem_cons_self w ws),
      ih fun y hy => h y (List.mem_cons_of_mem w hy)]
    rfl

/-- A successful optional replies normalization sources each entry from a
strictly smaller raw node of the replies array. -/
theorem normalizeRepliesOpt_sized {post : Option RawPost} {asPost : RawPost}
    {reason : Option Reason} {rp : Option RawNode} :
    ∀ {replies : Option (List RawNode)} {lvs : List (Option PostView)},
    normalizeRepliesOpt replies = .ok lvs → ∀ o ∈ lvs,
    ∃ r : RawNode, sizeOf r < sizeOf (RawNode.mk post asPost reason rp replies)
      ∧ normalizePost r = .ok o := by
  intro replies lvs h o ho
  cases replies with
  | none =>
    rw [normalizeRepliesOpt] at h
    cases h
    cases ho
  | some l =>
    rw [normalizeRepliesOpt] at h
    obtain ⟨r, hr, hro⟩ := normalizeReplies_mem h o ho
    exact ⟨r, sizeOf_mem_rawReplies hr, hro⟩

/-- Renormalization: feeding any successful normalization result back through
normalizePost (which re-reads it through its nested post field) succeeds and
yields the renorm of the view: every post-derived facet is preserved, while
repostedBy, repostTime, parent and likers are reset and the replies are
renormalized recursively. -/
theorem normalize_toRaw : ∀ (x : RawNode) (v : PostView),
    normalizePost x = .ok (some v) →
    normalizePost v.toRaw = .ok (some v.renorm) := by
  refine sizeOfInd fun x ih => ?_
  intro v h
  cases x with
  | mk post asPost reason rp replies =>
    rw [normalizePost] at h
    by_cases huri : jsTruthy (selectPost post asPost).uri = true
    case neg =>
      rw [if_neg huri] at h
      simp only [pure, Except.pure, Except.ok.injEq] at h
      exact Option.noConfusion h
    case pos =>
      rw [if_pos huri] at h
      cases hfe : flattenEmbed (selectPost post asPost).embed with
      | error m =>
        rw [hfe] at h
        simp only [Bind.bind, Except.bind] at h
        exact Except.noConfusion h
      | ok fe =>
        rw [hfe] at h
        simp only [Bind.bind, Except.bind] at h
        cases hpar : normalizeParentOpt rp with
        | error m =>
          rw [hpar] at h
          exact Except.noConfusion h
        | ok par =>
          rw [hpar] at h
          cases hreps : normalizeRepliesOpt replies with
          | error m =>
            rw [hreps] at h
            exact Except.noConfusion h
          | ok lvs =>
            rw [hreps] at h
            simp only [pure, Except.pure, Except.ok.injEq, Option.some.injEq] at h
            subst h
            have hpoint : ∀ w ∈ lvs.filterMap id,
                normalizePost w.toRaw = .ok (some w.renorm) := by
              intro w hw
              obtain ⟨o, ho, hid⟩ := List.mem_filterMap.mp hw
              obtain ⟨r, hsz, hro⟩ := normalizeRepliesOpt_sized hreps o ho
              cases hid
              exact ih r hsz w hro
            generalize hP : selectPost post asPost = P at huri hfe ⊢
            rw [PostView.toRaw, toRawList_eq_map, PostView.renorm,
              renormList_eq_map, normalizePost]
            simp only [selectPost]
            rw [if_pos huri, hfe]
            simp only [Bind.bind, Except.bind, normalizeParentOpt,
              normalizeRepliesOpt]
            rw [← toRawList_eq_map,
              normalizeReplies_toRaw _ hpoint]
            simp only [pure, Except.pure, isRepostReason, Bool.false_eq_true,
              if_false, filterMap_id_map_some, Except.ok.injEq,
              Option.some.injEq]

/-- C1 as amended: renormalizing a normalization result always succeeds and
preserves the post and every post-derived facet, but resets the repostedBy,
repostTime and parent fields to null and renormalizes the replies, because a
normalized PostView carries no reason key and no reply key; consequently full
idempotence normalizePost (normalizePost x) = normalizePost x holds exactly
on results that are plain (no repost wrapper data and no parent linkage,
recursively). -/
theorem claim1_renormalization (x : RawNode) (v : PostView)
    (h : normalizePost x = .ok (some v)) :
    normalizePost v.toRaw = .ok (some v.renorm)
    ∧ (plainView v = true → normalizePost v.toRaw = .ok (some v)) :=
  ⟨normalize_toRaw x v h,
   fun hp => (normalize_toRaw x v h).trans
     (by rw [renorm_eq_self_of_plain v hp])⟩

/-- The raw repost feed item of the C1 counterexample. -/
def c1x : RawNode :=
  .mk (some ⟨some "at://p/1", none, none, none, none, none, none⟩)
    RawPost.void (some ⟨some reasonRepostType, some "did:alice", some "2024-01-01"⟩)
    none none

/-- The normalization of c1x: a view carrying repostedBy and repostTime. -/
def c1V : PostView :=
  .mk ⟨some "at://p/1", none, none, none, none, none, none⟩
    (some "did:alice") (some "2024-01-01") none none none none [] none none [] []

/-- The renormalization of c1V: repostedBy and repostTime are lost. -/
def c1V2 : PostView :=
  .mk ⟨some "at://p/1", none, none, none, none, none, none⟩
    none none none none none none [] none none [] []

/-- Counterexample to C1 as stated: for a repost feed item, renormalizing the
normalized result yields a different PostView — the repostedBy (and
repostTime) fields are reset to null, so normalization is not idempotent on
repost wrappers. -/
theorem claim1_counterexample :
    normalizePost c1x = .ok (some c1V)
    ∧ normalizePost c1V.toRaw = .ok (some c1V2)
    ∧ c1V2 ≠ c1V := by
  refine ⟨rfl, rfl, ?_⟩
  intro hEq
  have hproj := congrArg PostView.repostedBy hEq
  simp [c1V, c1V2, PostView.repostedBy] at hproj

/-- A bare raw post node for the C1 witness. -/
def c1w : RawNode :=
  .mk none ⟨some "at://w", none, none, none, none, none, none⟩ none none none

/-- Its normalization, which is plain. -/
def c1Vw : PostView :=
  .mk ⟨some "at://w", none, none, none, none, none, none⟩
    none none none none none none [] none none [] []

/-- Witness for C1 at a bare post: the result is plain, and renormalizing it
reproduces it exactly. -/
theorem claim1_witness :
    normalizePost c1w = .ok (some c1Vw)
    ∧ plainView c1Vw = true
    ∧ normalizePost c1Vw.toRaw = .ok (some c1Vw) := by
  refine ⟨rfl, rfl, ?_⟩
  exact (claim1_renormalization c1w c1Vw (by rfl)).2 (by rfl)

end WiiPlasmic
